import Mathlib

/-
Shallow embedding of the jsonrpc2 package (jsonrpc2.go) for checking the
natural-language specification against the code.

The Go source is embedded as follows:
  - JSON `any` values become the inductive `GoValue`;
  - Go maps (`service.methods`, `jsonRpcImpl.services`) become association
    lists with Go map-assignment semantics (`mapInsert`) and `List.lookup`;
  - a handler (a reflected method value) becomes a function from the
    positional argument list to a `HandlerResult`, which either returns the
    Go triple (result, error, *RpcErrorCode) or raises a runtime panic;
  - the channel sends of `service.call` become the returned `CallOutcome`
    (every path of the Go function performs exactly one channel send and
    then returns, so the single return value models the single send);
  - the `select` race between a result channel and `ctx.Done()` becomes an
    explicit `cancelled : Bool` parameter choosing the branch that wins;
  - the nondeterministic completion order of the batch fan-in becomes an
    explicit `collected` list constrained to be a permutation of the
    scheduled outcomes;
  - the mutex discipline of the batch fan-in loop is modelled separately as
    instruction sequences over an explicit lock state (`runBatchOps`).
-/

set_option autoImplicit false

namespace Jsonrpc2

/-- Dynamic Go values (`any`): models the JSON scalars as they occur in
request params, results and error data (the dispatcher never inspects the
structure of a param or result, so scalars are a sufficient value
universe). -/
inductive GoValue where
  | vNull
  | vBool (b : Bool)
  | vNum (n : Int)
  | vStr (s : String)
deriving DecidableEq, Repr

/-- Modelled from the spec: the error-code type `RpcErrorCode` is declared in
a repository file that is not under src; the spec fixes the standard codes
PARSE_ERROR, INVALID_REQUEST, METHOD_NOT_FOUND, INVALID_PARAMS and
INTERNAL_ERROR as distinct integers. -/
abbrev RpcErrorCode := Int

/-- Modelled from the spec: standard code for a payload/method-path parse failure. -/
def PARSE_ERROR : RpcErrorCode := 32700

/-- Modelled from the spec: standard code for an invalid request (wrong version). -/
def INVALID_REQUEST : RpcErrorCode := 32600

/-- Modelled from the spec: standard code for an unknown service or method. -/
def METHOD_NOT_FOUND : RpcErrorCode := 32601

/-- Modelled from the spec: standard code for invalid parameters. -/
def INVALID_PARAMS : RpcErrorCode := 32602

/-- Modelled from the spec: standard code for internal failures (panics,
cancellation, missing error code). -/
def INTERNAL_ERROR : RpcErrorCode := 32603

/-- Modelled from the spec: the fixed protocol version string. -/
def RPC_VERSION : String := "2.0"

/-- JSON-RPC request object (`request` in jsonrpc2.go). `Id = none` marks a
notification. -/
structure Request where
  Id : Option String
  Method : String
  Params : List GoValue
  Jsonrpc : String
deriving DecidableEq, Repr

/-- JSON-RPC error response object (`errorResponse` in jsonrpc2.go). -/
structure ErrorResponse where
  Code : RpcErrorCode
  Data : Option GoValue
  Message : String
deriving DecidableEq, Repr

/-- JSON-RPC response object (`response` in jsonrpc2.go). -/
structure Response where
  Jsonrpc : String
  Id : Option String
  Result : Option GoValue
  Error : Option ErrorResponse
deriving DecidableEq, Repr

/-- Result of running a handler body: either the Go method returns its
three outputs (result value, error, optional error code, where `none`
models the nil error interface and the nil error-code), or a runtime panic
is raised during argument binding, execution or result extraction. -/
inductive HandlerResult where
  | panics (msg : String)
  | returns (result : GoValue) (err : Option String) (code : Option RpcErrorCode)

/-- A registered handler: a reflected method value, applied to the
positional arguments (the context argument is threaded through uniformly
by `service.call` and carries no data in this model). -/
abbrev Handler := List GoValue → HandlerResult

/-- A service: a named group of validated methods (`service` in
jsonrpc2.go). The Go map from method name to method value is modelled as
an association list. -/
structure Service where
  methods : List (String × Handler)
  name : String

/-- Error sent on the error channel by `service.call` (`callerError`). -/
structure CallerError where
  err : String
  code : RpcErrorCode
  reqId : Option String
deriving DecidableEq, Repr

/-- Success sent on the response channel by `service.call` (`callerSuccess`). -/
structure CallerSuccess where
  data : GoValue
  reqId : Option String
deriving DecidableEq, Repr

/-- The single channel send performed by one run of `service.call`: either
a `callerError` on the error channel or a `callerSuccess` on the response
channel. -/
inductive CallOutcome where
  | err (e : CallerError)
  | ok (s : CallerSuccess)
deriving DecidableEq, Repr

/-- The request id carried by an outcome. -/
def CallOutcome.reqId : CallOutcome → Option String
  | .err e => e.reqId
  | .ok s => s.reqId

/-- Embedding of `service.call` (jsonrpc2.go lines 132-191): method lookup,
panic recovery converting any runtime fault to INTERNAL_ERROR, and
normalization of the handler's (result, error, code) triple. A nil error
code (`none`) defaults the error code to INTERNAL_ERROR. -/
def Service.call (s : Service) (methodName : String) (args : List GoValue)
    (id : Option String) : CallOutcome :=
  match s.methods.lookup methodName with
  | none =>
      .err ⟨"Method " ++ methodName ++ " does not exist on service " ++ s.name,
            METHOD_NOT_FOUND, id⟩
  | some method =>
      match method args with
      | .panics msg =>
          .err ⟨"Internal error: Panic " ++ msg, INTERNAL_ERROR, id⟩
      | .returns result errOut codeOut =>
          match errOut with
          | some e =>
              let code : RpcErrorCode :=
                match codeOut with
                | none => INTERNAL_ERROR
                | some c => c
              .err ⟨e, code, id⟩
          | none => .ok ⟨result, id⟩

/-- Splitting a character list around every dot, as Go
`strings.Split(s, ".")` does: returns the (never empty) list of segments. -/
def splitOnDot : List Char → List (List Char)
  | [] => [[]]
  | c :: cs =>
      match splitOnDot cs with
      | [] => [[]]
      | h :: t => if c = '.' then [] :: h :: t else (c :: h) :: t

/-- The segments of a method string around dots, as Go strings. -/
def goSplitDot (s : String) : List String :=
  (splitOnDot s.data).map String.mk

/-- Embedding of `sanitizeMethodPath` (jsonrpc2.go lines 256-269): if the
method string contains no dot the result is an error (`none`); otherwise
the string is split around every dot and the first two segments are
returned as service name and method name. -/
def sanitizeMethodPath (method : String) : Option (String × String) :=
  if method.data.contains '.' = false then none
  else
    let n := goSplitDot method
    some (n.getD 0 "", n.getD 1 "")

/-- The spec's method-path condition, stated from the spec's words for
comparison with `sanitizeMethodPath`: the method string contains exactly
one separator splitting it into a non-empty service part and a non-empty
method part. -/
def specMethodPathOk (method : String) : Bool :=
  match goSplitDot method with
  | [s, m] => !s.isEmpty && !m.isEmpty
  | _ => false

/-- Reflected type information of a candidate method (`reflect.Method`),
restricted to the attributes the repository reads or the spec talks
about: exported flag, number of inputs (the receiver included, as Go
reflection counts it), number of outputs, and whether the first
(post-receiver) parameter is a `context.Context`. -/
structure MethodType where
  exported : Bool
  numIn : Nat
  numOut : Nat
  firstParamIsContext : Bool
deriving DecidableEq, Repr

/-- Embedding of `isValidMethod` (jsonrpc2.go lines 429-442): exported,
a non-zero number of inputs, and exactly three outputs. The first
parameter's type is not inspected. -/
def isValidMethod (methodType : MethodType) : Bool :=
  if methodType.exported = false then false
  else if methodType.numIn = 0 then false
  else if methodType.numOut ≠ 3 then false
  else true

/-- The spec's calling-convention condition, stated from the spec's words
for comparison with `isValidMethod`: exported, at least one input whose
first parameter is a cancellation-aware context value, and exactly three
outputs. -/
def specValidMethod (methodType : MethodType) : Bool :=
  methodType.exported && decide (1 ≤ methodType.numIn) &&
    methodType.firstParamIsContext && decide (methodType.numOut = 3)

/-- One candidate method of a service value, as enumerated by reflection:
its name, its reflected type, and the callable method value. -/
structure Candidate where
  name : String
  type : MethodType
  handler : Handler

/-- A user service value as seen through reflection: its type name and the
enumerated candidate methods (Go reflection enumerates the exported method
set of a concrete type). -/
structure ServiceValue where
  typeName : String
  methodsList : List Candidate

/-- The RPC implementation (`jsonRpcImpl`): the registry from service name
to service, a Go map modelled as an association list. -/
structure JsonRpcImpl where
  services : List (String × Service)

/-- Go map assignment `m[k] = v`: the new binding replaces any existing
binding of the same key. -/
def mapInsert (l : List (String × Service)) (k : String) (v : Service) :
    List (String × Service) :=
  (k, v) :: l.filter (fun p => p.1 ≠ k)

/-- Embedding of `jsonRpcImpl.register` (jsonrpc2.go lines 89-121): fails
when the service value exposes zero candidate methods; otherwise builds a
service keeping only the candidates accepted by `isValidMethod`, stores it
in the registry unconditionally, and then checks whether the registry
itself is empty (which it never is after the insertion). -/
def register (rpc : JsonRpcImpl) (srv : ServiceValue) (name : Option String) :
    Except String JsonRpcImpl :=
  if srv.methodsList.length = 0 then
    .error "No method registered for this service"
  else
    let sname := name.getD srv.typeName
    let svc : Service :=
      ⟨(srv.methodsList.filter (fun c => isValidMethod c.type)).map
          (fun c => (c.name, c.handler)),
        sname⟩
    let services := mapInsert rpc.services sname svc
    if services.length = 0 then
      .error "No method registered for this service"
    else
      .ok ⟨services⟩

/-- Embedding of `makeErrorResponse` (jsonrpc2.go lines 275-287). -/
def makeErrorResponse (errMsg : String) (errCode : RpcErrorCode)
    (data : Option GoValue) (id : Option String) : Response :=
  ⟨RPC_VERSION, id, none, some ⟨errCode, data, errMsg⟩⟩

/-- Embedding of `makeSuccessResponse` (jsonrpc2.go lines 289-297). -/
def makeSuccessResponse (data : GoValue) (id : Option String) : Response :=
  ⟨RPC_VERSION, id, some data, none⟩

/-- What `writeResponse` (jsonrpc2.go lines 215-228) puts on the wire for a
single request: when the id is nil it replies 204 No Content with no body
and discards the response object; otherwise it serializes the response as
the body. -/
inductive SingleReply where
  | noContent
  | body (r : Response)
deriving DecidableEq, Repr

/-- Embedding of `writeResponse`. -/
def writeResponse (res : Response) (id : Option String) : SingleReply :=
  match id with
  | none => .noContent
  | some _ => .body res

/-- Converting one fan-in channel receive to the response appended to the
batch collection (jsonrpc2.go lines 339-347). -/
def outcomeToResponse : CallOutcome → Response
  | .err e => makeErrorResponse e.err e.code none e.reqId
  | .ok s => makeSuccessResponse s.data s.reqId

/-- Embedding of `jsonRpcImpl.handleSingleRequest` (jsonrpc2.go lines
364-409): version check, method-path check, service lookup, then a race
between the single call outcome and cancellation; `cancelled` tells which
branch of the `select` fires. -/
def handleSingleRequest (impl : JsonRpcImpl) (cancelled : Bool)
    (req : Request) : SingleReply :=
  if req.Jsonrpc ≠ RPC_VERSION then
    writeResponse
      (makeErrorResponse "Invalid RPC version. jsonrpc must be 2.0"
        INVALID_REQUEST none req.Id) req.Id
  else
    match sanitizeMethodPath req.Method with
    | none =>
        writeResponse
          (makeErrorResponse "Invalid method name" PARSE_ERROR none req.Id)
          req.Id
    | some (serviceName, methodName) =>
        match impl.services.lookup serviceName with
        | none =>
            writeResponse
              (makeErrorResponse
                ("Service " ++ serviceName ++ " is not registered")
                METHOD_NOT_FOUND none req.Id) req.Id
        | some svc =>
            if cancelled then
              writeResponse
                (makeErrorResponse "Request canceled" INTERNAL_ERROR none
                  req.Id) req.Id
            else
              match svc.call methodName req.Params req.Id with
              | .err e =>
                  writeResponse (makeErrorResponse e.err e.code none e.reqId)
                    e.reqId
              | .ok d =>
                  writeResponse (makeSuccessResponse d.data d.reqId) d.reqId

/-- One entry of the batch fan-out work list (`batchServiceRequestType`). -/
structure BatchItem where
  methodName : String
  req : Request
  service : Service

/-- Embedding of the validation loop of `jsonRpcImpl.handleBatchRequest`
(jsonrpc2.go lines 304-327): every request is checked independently for
version, method path and service resolution; failures are converted to
error responses immediately, survivors are collected for fan-out. Returns
the pre-validation responses and the fan-out work list, both in input
order. -/
def batchValidate (impl : JsonRpcImpl) :
    List Request → List Response × List BatchItem
  | [] => ([], [])
  | req :: rest =>
      if req.Jsonrpc ≠ RPC_VERSION then
        (makeErrorResponse "Invalid RPC version. jsonrpc must be 2.0"
            INVALID_REQUEST none req.Id :: (batchValidate impl rest).1,
          (batchValidate impl rest).2)
      else
        match sanitizeMethodPath req.Method with
        | none =>
            (makeErrorResponse "Invalid method name" PARSE_ERROR none
                req.Id :: (batchValidate impl rest).1,
              (batchValidate impl rest).2)
        | some (serviceName, methodName) =>
            match impl.services.lookup serviceName with
            | none =>
                (makeErrorResponse
                    ("Service " ++ serviceName ++ " is not registered")
                    METHOD_NOT_FOUND none req.Id :: (batchValidate impl rest).1,
                  (batchValidate impl rest).2)
            | some svc =>
                ((batchValidate impl rest).1,
                  ⟨methodName, req, svc⟩ :: (batchValidate impl rest).2)

/-- The characterization of which batch members reach the fan-out stage,
read off the validation loop: correct version, a method path accepted by
`sanitizeMethodPath`, and a registered service. -/
def isSchedulable (impl : JsonRpcImpl) (req : Request) : Bool :=
  if req.Jsonrpc ≠ RPC_VERSION then false
  else
    match sanitizeMethodPath req.Method with
    | none => false
    | some (serviceName, _) => (impl.services.lookup serviceName).isSome

/-- The outcome each scheduled goroutine sends (jsonrpc2.go line 334): one
`service.call` per fan-out entry. -/
def batchOutcomes (vs : List BatchItem) : List CallOutcome :=
  vs.map (fun b => b.service.call b.methodName b.req.Params b.req.Id)

/-- Embedding of the response collection built by
`jsonRpcImpl.handleBatchRequest` on a run in which cancellation never
fires: the pre-validation error responses followed by the fan-in
responses. `collected` is the list of outcomes in the order the fan-in
loop receives them; the caller constrains it to be a permutation of
`batchOutcomes` of the work list, which is exactly the guarantee the
channels give (every send is received once, in nondeterministic order). -/
def handleBatchRequest (impl : JsonRpcImpl) (requests : List Request)
    (collected : List CallOutcome) : List Response :=
  (batchValidate impl requests).1 ++ collected.map outcomeToResponse

/-- The terminal entry appended by the cancellation branch of the fan-in
loop (jsonrpc2.go lines 349-353): an INTERNAL_ERROR response built with a
nil id. -/
def cancelTerminalEntry : Response :=
  makeErrorResponse "Request was not able to complete" INTERNAL_ERROR none
    none

/-- Embedding of `writeBatchResponse` (jsonrpc2.go lines 230-244): the
emitted array keeps exactly the responses whose id is not nil. -/
def writeBatchResponse (responses : List Response) : List Response :=
  responses.filter (fun resp => resp.Id.isSome)

/-- The decoded shape of a raw payload, abstracting the two `json.Unmarshal`
attempts of `readRequest`: a payload that unmarshals as a single request
object, one that unmarshals as an array of request objects, or one that
unmarshals as neither. -/
inductive RawPayload where
  | single (req : Request)
  | batch (reqs : List Request)
  | malformed

/-- Embedding of `readRequest` (jsonrpc2.go lines 194-213). -/
def readRequest : RawPayload → Except String (Request ⊕ List Request)
  | .single req => .ok (.inl req)
  | .batch reqs => .ok (.inr reqs)
  | .malformed => .error "Unable to decode request"

/-- What the top-level handler puts on the wire: no body (204 No Content),
one response object, or a batch array. -/
inductive HandleReply where
  | noContent
  | body (r : Response)
  | batchBody (rs : List Response)
deriving DecidableEq, Repr

/-- Lift a single-request reply to a handler reply. -/
def SingleReply.toHandleReply : SingleReply → HandleReply
  | .noContent => .noContent
  | .body r => .body r

/-- Embedding of `jsonRpcImpl.handle` (jsonrpc2.go lines 411-427): on a
decode failure it calls `writeErrorResponse` with a PARSE_ERROR and a nil
id, which `writeResponse` turns into a bodiless reply; otherwise it
dispatches to the single or batch path. `cancelled` and `collected` carry
the scheduling nondeterminism of those paths. -/
def handle (impl : JsonRpcImpl) (cancelled : Bool)
    (collected : List CallOutcome) (payload : RawPayload) : HandleReply :=
  match readRequest payload with
  | .error e =>
      (writeResponse (makeErrorResponse e PARSE_ERROR none none)
        none).toHandleReply
  | .ok (.inl req) => (handleSingleRequest impl cancelled req).toHandleReply
  | .ok (.inr reqs) =>
      .batchBody
        (writeBatchResponse (handleBatchRequest impl reqs collected))

/-- The mutex-relevant instructions of one branch of the batch fan-in
`select` (jsonrpc2.go lines 337-355): locking the batch mutex, unlocking
it, and appending to the shared response collection. -/
inductive BatchOp where
  | lock
  | unlock
  | appendResp
deriving DecidableEq, Repr

/-- Runs a branch's instruction sequence against the mutex state (`true` =
locked). Go's `sync.Mutex` faults on unlocking an unlocked mutex, and the
fan-in loop is the only user of this mutex, so a lock taken while already
locked on the same path can never be released: both are modelled as
`none`. On success, returns the final lock state together with, for each
append, whether the mutex was held at that append. -/
def runBatchOps : Bool → List BatchOp → Option (Bool × List Bool)
  | locked, [] => some (locked, [])
  | locked, .lock :: rest =>
      if locked then none else runBatchOps true rest
  | locked, .unlock :: rest =>
      if locked then runBatchOps false rest else none
  | locked, .appendResp :: rest =>
      (runBatchOps locked rest).map (fun p => (p.1, locked :: p.2))

/-- The error-channel branch (jsonrpc2.go lines 339-342): lock, append the
error response, unlock. -/
def errBranchOps : List BatchOp := [.lock, .appendResp, .unlock]

/-- The response-channel branch (jsonrpc2.go lines 344-347): lock, append
the success response, unlock. -/
def respBranchOps : List BatchOp := [.lock, .appendResp, .unlock]

/-- The cancellation branch (jsonrpc2.go lines 349-353): unlock, append the
terminal INTERNAL_ERROR response, unlock again — no lock anywhere. -/
def cancelBranchOps : List BatchOp := [.unlock, .appendResp, .unlock]

/-
Concrete fixtures, mirroring the `Arith` service of the repository's tests
and README.
-/

/-- A handler that returns the number 3 with a nil error, like a successful
`Arith.Add` call. -/
def addHandler : Handler := fun _ => .returns (.vNum 3) none none

/-- A handler that returns a non-nil error and no error code, like the
tests' `ErrorMethod` would with a nil code. -/
def errHandler : Handler := fun _ => .returns .vNull (some "Some error here") none

/-- A handler whose execution raises a runtime panic. -/
def panicHandler : Handler := fun _ => .panics "boom"

/-- The `Arith` service with a single `Add` method. -/
def arithService : Service := ⟨[("Add", addHandler)], "Arith"⟩

/-- A registry holding only the `Arith` service. -/
def arithImpl : JsonRpcImpl := ⟨[("Arith", arithService)]⟩

/-- A service exposing a panicking method. -/
def panicService : Service := ⟨[("Boom", panicHandler)], "P"⟩

/-- A reflected method type with zero outputs, like the tests' `FuncCheck1`:
exported, only the receiver as input, no outputs. -/
def zeroOutType : MethodType := ⟨true, 1, 0, false⟩

/-- A service value whose only candidate method fails the calling
convention (zero outputs). -/
def invalidOnlySrv : ServiceValue :=
  ⟨"testType", [⟨"FuncCheck1", zeroOutType, fun _ => .returns .vNull none none⟩]⟩

/-- A reflected method type that is exported, has an input that is not a
context value, and has exactly three outputs. -/
def noCtxMethodType : MethodType := ⟨true, 2, 3, false⟩

/-- A reflected method type satisfying the full calling convention. -/
def ctxMethodType : MethodType := ⟨true, 1, 3, true⟩

/-- A service value with one valid and one invalid candidate method. -/
def mixedSrv : ServiceValue :=
  ⟨"mixed",
    [⟨"Good", ctxMethodType, fun _ => .returns (.vNum 1) none none⟩,
      ⟨"Bad", zeroOutType, fun _ => .returns .vNull none none⟩]⟩

/-- A service named `a` exposing a method named `b`. -/
def abService : Service := ⟨[("b", fun _ => .returns (.vNum 7) none none)], "a"⟩

/-- A registry holding only the service named `a`. -/
def abImpl : JsonRpcImpl := ⟨[("a", abService)]⟩

/-- A request whose method string has two separators. -/
def abcReq : Request := ⟨some "1", "a.b.c", [], "2.0"⟩

/-- A request whose method string has no separator. -/
def noDotReq : Request := ⟨some "1", "ArithAdd", [], "2.0"⟩

/-- A request for a method that does not exist on the `Arith` service. -/
def subReq : Request := ⟨some "1", "Arith.Sub", [], "2.0"⟩

/-
Claim theorems.
-/

/-- C2: the claim states that on every execution path of the batch fan-in
loop each unlock of the batch mutex is preceded by a matching lock, so no
path unlocks an unlocked mutex, and that every append happens inside the
critical section. The code violates this: the cancellation branch performs
two unlocks with no lock at all, so running it from the unlocked state
faults (the error and success branches are balanced, with their append
under the lock). -/
theorem c2_cancel_branch_unlocks_unlocked_mutex :
    runBatchOps false cancelBranchOps = none ∧
    runBatchOps false errBranchOps = some (false, [true]) ∧
    runBatchOps false respBranchOps = some (false, [true]) := by
  decide

/-- C3: the claim states that registration fails exactly when zero candidate
methods pass validation, and that a service whose methods all fail
validation is rejected and not added. The code instead only fails when the
service exposes zero candidate methods: a service whose single candidate
fails validation is registered successfully with an empty method map and
is present in the registry afterwards. -/
theorem c3_all_invalid_service_still_registered :
    isValidMethod zeroOutType = false ∧
    register ⟨[]⟩ invalidOnlySrv none = .ok ⟨[("testType", ⟨[], "testType"⟩)]⟩ ∧
    (JsonRpcImpl.mk [("testType", ⟨[], "testType"⟩)]).services.lookup "testType"
      = some ⟨[], "testType"⟩ :=
  ⟨rfl, rfl, rfl⟩

/-- C6: the claim states that a payload parsing neither as a single request
nor as a batch is answered with one standalone PARSE_ERROR response with a
null id as the body of the reply. The code builds that response but passes
the null id to `writeResponse`, which treats a null id as a notification
and replies 204 No Content with no body at all: no response object is ever
emitted. -/
theorem c6_decode_failure_reply_has_no_body (impl : JsonRpcImpl)
    (cancelled : Bool) (collected : List CallOutcome) :
    handle impl cancelled collected .malformed = .noContent ∧
    ∀ r : Response, handle impl cancelled collected .malformed ≠ .body r := by
  refine ⟨rfl, ?_⟩
  intro r hr
  exact HandleReply.noConfusion hr

/-- C1: for a registered handler satisfying the calling convention
(its body returns the (result, error, code) triple), `service.call`
produces exactly one outcome: an error carrying the handler-supplied code
(INTERNAL_ERROR when no code was supplied) when the error output is
non-nil, and otherwise a success carrying the result value; never both,
never neither. -/
theorem c1_invoke_exactly_one_outcome (s : Service) (m : String)
    (h : Handler) (args : List GoValue) (id : Option String)
    (result : GoValue) (errOut : Option String)
    (codeOut : Option RpcErrorCode)
    (hm : s.methods.lookup m = some h)
    (hr : h args = .returns result errOut codeOut) :
    (∀ e : String, errOut = some e →
        s.call m args id = .err ⟨e, codeOut.getD INTERNAL_ERROR, id⟩) ∧
    (errOut = none → s.call m args id = .ok ⟨result, id⟩) ∧
    ¬ ((∃ e, s.call m args id = .err e) ∧
        (∃ d, s.call m args id = .ok d)) := by
  unfold Service.call
  simp only [hm, hr]
  cases errOut with
  | none =>
      refine ⟨fun e he => Option.noConfusion he, fun _ => rfl, ?_⟩
      rintro ⟨⟨e, he⟩, -⟩
      exact CallOutcome.noConfusion he
  | some e0 =>
      cases codeOut with
      | none =>
          refine ⟨fun e he => by cases he; rfl, fun hn => Option.noConfusion hn, ?_⟩
          rintro ⟨-, ⟨d, hd⟩⟩
          exact CallOutcome.noConfusion hd
      | some c0 =>
          refine ⟨fun e he => by cases he; rfl, fun hn => Option.noConfusion hn, ?_⟩
          rintro ⟨-, ⟨d, hd⟩⟩
          exact CallOutcome.noConfusion hd

/-- Witness for C1 at a concrete service, handler and argument list. -/
theorem c1_invoke_exactly_one_outcome_witness :
    arithService.methods.lookup "Add" = some addHandler ∧
    addHandler [] = .returns (.vNum 3) none none ∧
    ((∀ e : String, (none : Option String) = some e →
        arithService.call "Add" [] (some "1")
          = .err ⟨e, (none : Option RpcErrorCode).getD INTERNAL_ERROR, some "1"⟩) ∧
      ((none : Option String) = none →
        arithService.call "Add" [] (some "1") = .ok ⟨.vNum 3, some "1"⟩) ∧
      ¬ ((∃ e, arithService.call "Add" [] (some "1") = .err e) ∧
          (∃ d, arithService.call "Add" [] (some "1") = .ok d))) :=
  ⟨rfl, rfl,
    c1_invoke_exactly_one_outcome arithService "Add" addHandler [] (some "1")
      (.vNum 3) none none rfl rfl⟩

/-- C7: any runtime panic raised while running the handler (argument
binding, execution, and result extraction are all inside the recovery
boundary) is caught and converted into exactly one error outcome with code
INTERNAL_ERROR: the call still returns a single outcome and the panic is
not propagated. -/
theorem c7_panic_converted_to_internal_error (s : Service) (m : String)
    (h : Handler) (args : List GoValue) (id : Option String) (msg : String)
    (hm : s.methods.lookup m = some h)
    (hp : h args = .panics msg) :
    s.call m args id
      = .err ⟨"Internal error: Panic " ++ msg, INTERNAL_ERROR, id⟩ := by
  unfold Service.call
  simp only [hm, hp]

/-- Witness for C7 at a concrete panicking handler. -/
theorem c7_panic_converted_to_internal_error_witness :
    panicService.methods.lookup "Boom" = some panicHandler ∧
    panicHandler [] = .panics "boom" ∧
    panicService.call "Boom" [] (some "7")
      = .err ⟨"Internal error: Panic " ++ "boom", INTERNAL_ERROR, some "7"⟩ :=
  ⟨rfl, rfl,
    c7_panic_converted_to_internal_error panicService "Boom" panicHandler []
      (some "7") "boom" rfl rfl⟩

/-- C4, counterexample: the claim states the validator accepts a candidate
only if its first parameter is a cancellation-aware context value. The
code never inspects the parameter type: a method whose first parameter is
not a context but which is exported, has inputs and has three outputs is
accepted, while the spec-side condition rejects it. -/
theorem c4_counterexample_context_not_checked :
    isValidMethod noCtxMethodType = true ∧
    specValidMethod noCtxMethodType = false := by
  decide

/-- C4, amended: the validator accepts a candidate exactly when it is
exported, has at least one input, and has exactly three outputs — the
context type of the first parameter is not checked; and candidates failing
the rules are silently excluded: registration of a non-empty service value
still succeeds, and every method entry of the registered service comes
from a candidate accepted by the validator. -/
theorem c4_amended_calling_convention (m : MethodType) (rpc : JsonRpcImpl)
    (srv : ServiceValue) (nm : Option String)
    (hne : srv.methodsList ≠ []) :
    (isValidMethod m = true
        ↔ (m.exported = true ∧ 1 ≤ m.numIn ∧ m.numOut = 3)) ∧
    ∃ impl2, register rpc srv nm = .ok impl2 ∧
      ∀ svc, impl2.services.lookup (nm.getD srv.typeName) = some svc →
        ∀ p ∈ svc.methods, ∃ c ∈ srv.methodsList,
          isValidMethod c.type = true ∧ p = (c.name, c.handler) := by
  constructor
  · cases hb : m.exported with
    | false => simp [isValidMethod, hb]
    | true =>
        by_cases h2 : m.numIn = 0
        · simp [isValidMethod, hb, h2]
        · by_cases h3 : m.numOut = 3
          · simp [isValidMethod, hb, h2, h3]
            omega
          · simp [isValidMethod, hb, h2, h3]
  · have hlen : ¬ srv.methodsList.length = 0 := by
      simpa [List.length_eq_zero] using hne
    unfold register
    rw [if_neg hlen]
    rw [if_neg (by simp [mapInsert])]
    refine ⟨_, rfl, ?_⟩
    intro svc hsvc p hp
    simp only [mapInsert, List.lookup, beq_self_eq_true] at hsvc
    cases hsvc
    simp only [List.mem_map] at hp
    obtain ⟨c, hc, hpc⟩ := hp
    rw [List.mem_filter] at hc
    exact ⟨c, hc.1, hc.2, hpc.symm⟩

/-- Witness for C4's amended theorem at a concrete method type and a
service value with one valid and one invalid candidate. -/
theorem c4_amended_calling_convention_witness :
    mixedSrv.methodsList ≠ [] ∧
    ((isValidMethod noCtxMethodType = true
        ↔ (noCtxMethodType.exported = true ∧ 1 ≤ noCtxMethodType.numIn ∧
            noCtxMethodType.numOut = 3)) ∧
      ∃ impl2, register ⟨[]⟩ mixedSrv none = .ok impl2 ∧
        ∀ svc,
          impl2.services.lookup ((none : Option String).getD mixedSrv.typeName)
            = some svc →
          ∀ p ∈ svc.methods, ∃ c ∈ mixedSrv.methodsList,
            isValidMethod c.type = true ∧ p = (c.name, c.handler)) :=
  ⟨by simp [mixedSrv],
    c4_amended_calling_convention noCtxMethodType ⟨[]⟩ mixedSrv none
      (by simp [mixedSrv])⟩

/-- The dot-splitting of a character list always has at least one segment. -/
theorem splitOnDot_ne_nil (l : List Char) : splitOnDot l ≠ [] := by
  cases l with
  | nil => simp [splitOnDot]
  | cons c cs =>
      simp only [splitOnDot]
      cases hs : splitOnDot cs with
      | nil => simp
      | cons h t => by_cases hc : c = '.' <;> simp [hc]

/-- A character list holds a dot exactly when splitting it around dots
produces at least two segments. -/
theorem contains_dot_iff_split (l : List Char) :
    l.contains '.' = true ↔ 2 ≤ (splitOnDot l).length := by
  induction l with
  | nil => simp [splitOnDot]
  | cons c cs ih =>
      simp only [splitOnDot]
      cases hs : splitOnDot cs with
      | nil => exact absurd hs (splitOnDot_ne_nil cs)
      | cons h t =>
          rw [hs] at ih
          by_cases hc : c = '.'
          · subst hc
            simp
          · have hcb : ('.' == c) = false := by
              simp only [beq_eq_false_iff_ne, ne_eq]
              exact fun hd => hc hd.symm
            have step1 : ((c :: cs).contains '.') = (cs.contains '.') := by
              rw [List.contains_cons, hcb, Bool.false_or]
            show (c :: cs).contains '.' = true
              ↔ 2 ≤ (if c = '.' then [] :: h :: t else (c :: h) :: t).length
            rw [if_neg hc, step1, List.length_cons]
            rw [List.length_cons] at ih
            exact ih

/-- C5, counterexample: the claim states a method string is accepted only
when it has exactly one separator with non-empty parts. The code accepts
`a.b.c`, which has two separators, silently dropping the third segment and
dispatching the request successfully rather than answering PARSE_ERROR. -/
theorem c5_counterexample_two_separators_accepted :
    sanitizeMethodPath "a.b.c" = some ("a", "b") ∧
    specMethodPathOk "a.b.c" = false ∧
    handleSingleRequest abImpl false abcReq
      = .body (makeSuccessResponse (.vNum 7) (some "1")) := by
  refine ⟨by decide, by decide, rfl⟩

/-- C5, amended: a method string is accepted by the method-path validation
exactly when it contains at least one separator (equivalently, splits into
at least two segments); the service part is the first segment and the
method part the second, either possibly empty and further segments
ignored; a method string with no separator is answered with a PARSE_ERROR
response. -/
theorem c5_amended_method_path (impl : JsonRpcImpl) (cancelled : Bool)
    (req : Request) (hv : req.Jsonrpc = RPC_VERSION) :
    ((sanitizeMethodPath req.Method).isSome
        ↔ 2 ≤ (goSplitDot req.Method).length) ∧
    (sanitizeMethodPath req.Method = none →
        handleSingleRequest impl cancelled req =
          writeResponse
            (makeErrorResponse "Invalid method name" PARSE_ERROR none req.Id)
            req.Id) := by
  constructor
  · unfold sanitizeMethodPath
    cases hc : req.Method.data.contains '.' with
    | false =>
        have := (contains_dot_iff_split req.Method.data).symm
        simp only [goSplitDot, List.length_map]
        simp only [hc] at this
        simp [this]
    | true =>
        have h2 := (contains_dot_iff_split req.Method.data).mp hc
        simp only [goSplitDot, List.length_map]
        simp [hc, h2]
  · intro hs
    unfold handleSingleRequest
    rw [if_neg (by simp [hv])]
    simp only [hs]

/-- Witness for C5's amended theorem at a concrete separator-free request. -/
theorem c5_amended_method_path_witness :
    noDotReq.Jsonrpc = RPC_VERSION ∧
    (((sanitizeMethodPath noDotReq.Method).isSome
        ↔ 2 ≤ (goSplitDot noDotReq.Method).length) ∧
      (sanitizeMethodPath noDotReq.Method = none →
        handleSingleRequest arithImpl false noDotReq =
          writeResponse
            (makeErrorResponse "Invalid method name" PARSE_ERROR none
              noDotReq.Id)
            noDotReq.Id)) :=
  ⟨rfl, c5_amended_method_path arithImpl false noDotReq rfl⟩

/-- C9: for a validated request, an unregistered service name is answered
with METHOD_NOT_FOUND and the message "Service X is not registered", and a
registered service lacking the requested method is answered (through
`service.call`) with METHOD_NOT_FOUND and the message
"Method Y does not exist on service X". -/
theorem c9_method_not_found_messages (impl : JsonRpcImpl) (cancelled : Bool)
    (req : Request) (sn mn : String)
    (hv : req.Jsonrpc = RPC_VERSION)
    (hs : sanitizeMethodPath req.Method = some (sn, mn)) :
    (impl.services.lookup sn = none →
        handleSingleRequest impl cancelled req =
          writeResponse
            (makeErrorResponse ("Service " ++ sn ++ " is not registered")
              METHOD_NOT_FOUND none req.Id)
            req.Id) ∧
    (∀ svc, impl.services.lookup sn = some svc →
        svc.methods.lookup mn = none → cancelled = false →
        handleSingleRequest impl cancelled req =
          writeResponse
            (makeErrorResponse
              ("Method " ++ mn ++ " does not exist on service " ++ svc.name)
              METHOD_NOT_FOUND none req.Id)
            req.Id) := by
  constructor
  · intro hlk
    unfold handleSingleRequest
    rw [if_neg (by simp [hv])]
    simp only [hs, hlk]
  · intro svc hsvc hmn hc
    unfold handleSingleRequest
    rw [if_neg (by simp [hv])]
    simp only [hs, hsvc, hc]
    unfold Service.call
    simp only [hmn]
    simp

/-- Witness for C9 at the tests' scenario: `Arith.Sub` on a registry whose
`Arith` service only exposes `Add`. -/
theorem c9_method_not_found_messages_witness :
    subReq.Jsonrpc = RPC_VERSION ∧
    sanitizeMethodPath subReq.Method = some ("Arith", "Sub") ∧
    ((arithImpl.services.lookup "Arith" = none →
        handleSingleRequest arithImpl false subReq =
          writeResponse
            (makeErrorResponse ("Service " ++ "Arith" ++ " is not registered")
              METHOD_NOT_FOUND none subReq.Id)
            subReq.Id) ∧
      (∀ svc, arithImpl.services.lookup "Arith" = some svc →
        svc.methods.lookup "Sub" = none → false = false →
        handleSingleRequest arithImpl false subReq =
          writeResponse
            (makeErrorResponse
              ("Method " ++ "Sub" ++ " does not exist on service " ++ svc.name)
              METHOD_NOT_FOUND none subReq.Id)
            subReq.Id)) :=
  ⟨rfl, by decide,
    c9_method_not_found_messages arithImpl false subReq "Arith" "Sub" rfl
      (by decide)⟩

/-- C10: the terminal INTERNAL_ERROR entry appended by the cancellation
branch of the batch fan-in is built with a nil id, and the notification
filter of `writeBatchResponse` drops every nil-id entry, so no matter how
many terminal entries the loop appends, the emitted batch array never
contains one. -/
theorem c10_terminal_cancel_entry_never_emitted (rs : List Response)
    (k : Nat) :
    cancelTerminalEntry.Id = none ∧
    writeBatchResponse (rs ++ List.replicate k cancelTerminalEntry)
      = writeBatchResponse rs := by
  refine ⟨rfl, ?_⟩
  unfold writeBatchResponse
  rw [List.filter_append]
  have hrep :
      (List.replicate k cancelTerminalEntry).filter
        (fun resp => resp.Id.isSome) = [] := by
    induction k with
    | zero => rfl
    | succ n ih =>
        rw [List.replicate_succ, List.filter_cons]
        simp [cancelTerminalEntry, makeErrorResponse, ih]
  rw [hrep, List.append_nil]

/-- Every outcome of `service.call` carries the request id it was invoked
with, on every path (missing method, panic, application error, success). -/
theorem call_reqId (s : Service) (mn : String) (args : List GoValue)
    (id : Option String) : (s.call mn args id).reqId = id := by
  unfold Service.call
  cases s.methods.lookup mn with
  | none => rfl
  | some h =>
      cases hr : h args with
      | panics msg => simp [hr, CallOutcome.reqId]
      | returns r e c =>
          cases e with
          | none => simp [hr, CallOutcome.reqId]
          | some e0 => simp [hr, CallOutcome.reqId]

/-- The response built from a fan-in outcome keeps the outcome's request
id. -/
theorem outcomeToResponse_Id (o : CallOutcome) :
    (outcomeToResponse o).Id = o.reqId := by
  cases o <;> rfl

/-- Filtering before mapping commutes with mapping before filtering. -/
theorem filter_map_comm {α β : Type} (f : α → β) (p : β → Bool)
    (l : List α) :
    (l.filter (fun a => p (f a))).map f = (l.map f).filter p := by
  induction l with
  | nil => rfl
  | cons a t ih =>
      cases hp : p (f a) <;> simp [List.filter_cons, hp, ih]

/-- Splitting a list of optional ids by presence: the two filtered parts
account for the whole list. -/
theorem length_filter_sum (l : List (Option String)) :
    (l.filter (fun o => o.isSome)).length
      + (l.filter (fun o => o = none)).length = l.length := by
  induction l with
  | nil => rfl
  | cons o t ih => cases o <;> simp [List.filter_cons] <;> omega

/-- The ids of the pre-validation responses together with the ids of the
scheduled requests are a permutation of the ids of all batch members:
validation routes every request either to an immediate response or to the
fan-out work list. -/
theorem batchValidate_ids (impl : JsonRpcImpl) (reqs : List Request) :
    ((batchValidate impl reqs).1.map Response.Id
      ++ (batchValidate impl reqs).2.map (fun b => b.req.Id)).Perm
      (reqs.map Request.Id) := by
  induction reqs with
  | nil => simp [batchValidate]
  | cons req rest ih =>
      by_cases hv : req.Jsonrpc = RPC_VERSION
      · cases hs : sanitizeMethodPath req.Method with
        | none =>
            simp only [batchValidate, hv, hs, ne_eq, not_true_eq_false,
              if_false, List.map_cons, List.cons_append]
            exact ih.cons _
        | some pair =>
            obtain ⟨sn, mn⟩ := pair
            cases hl : impl.services.lookup sn with
            | none =>
                simp only [batchValidate, hv, hs, hl, ne_eq,
                  not_true_eq_false, if_false, List.map_cons,
                  List.cons_append]
                exact ih.cons _
            | some svc =>
                simp only [batchValidate, hv, hs, hl, ne_eq,
                  not_true_eq_false, if_false, List.map_cons]
                exact List.Perm.trans List.perm_middle (ih.cons _)
      · simp only [batchValidate, if_pos hv, List.map_cons,
          List.cons_append]
        exact ih.cons _

/-- The requests scheduled for fan-out are exactly the batch members that
pass version validation, method-path validation and service resolution,
in input order. -/
theorem batchValidate_sched (impl : JsonRpcImpl) (reqs : List Request) :
    (batchValidate impl reqs).2.map (fun b => b.req)
      = reqs.filter (isSchedulable impl) := by
  induction reqs with
  | nil => rfl
  | cons req rest ih =>
      by_cases hv : req.Jsonrpc = RPC_VERSION
      · cases hs : sanitizeMethodPath req.Method with
        | none =>
            have hf : isSchedulable impl req = false := by
              simp [isSchedulable, hv, hs]
            simp only [batchValidate, hv, hs, ne_eq, not_true_eq_false,
              if_false, List.filter_cons, hf]
            exact ih
        | some pair =>
            obtain ⟨sn, mn⟩ := pair
            cases hl : impl.services.lookup sn with
            | none =>
                have hf : isSchedulable impl req = false := by
                  simp [isSchedulable, hv, hs, hl]
                simp only [batchValidate, hv, hs, hl, ne_eq,
                  not_true_eq_false, if_false, List.filter_cons, hf]
                exact ih
            | some svc =>
                have hf : isSchedulable impl req = true := by
                  simp [isSchedulable, hv, hs, hl]
                simp only [batchValidate, hv, hs, hl, ne_eq,
                  not_true_eq_false, if_false, List.filter_cons, hf,
                  List.map_cons]
                exact congrArg (List.cons req) ih
      · have hf : isSchedulable impl req = false := by
          simp [isSchedulable, hv]
        simp only [batchValidate, if_pos hv, List.filter_cons, hf]
        exact ih

/-- A notification (no id) whose version string is wrong. -/
def badVersionNotif : Request := ⟨none, "a.b", [], "1.0"⟩

/-- A batch with one valid request, one notification and one request for an
unregistered service. -/
def batchReqs : List Request :=
  [⟨some "1", "Arith.Add", [], "2.0"⟩,
    ⟨none, "Arith.Add", [], "2.0"⟩,
    ⟨some "2", "NoSvc.Add", [], "2.0"⟩]

/-- C8, counterexample: the claim states every notification member of a
batch is still executed. A notification failing per-request validation
(here: wrong version) is converted to an immediate error response and
never scheduled: the fan-out work list of its batch is empty, so no
invocation executes it. -/
theorem c8_counterexample_invalid_notification_not_executed :
    badVersionNotif.Id = none ∧
    (batchValidate arithImpl [badVersionNotif]).2 = [] ∧
    batchOutcomes (batchValidate arithImpl [badVersionNotif]).2 = [] :=
  ⟨rfl, rfl, rfl⟩

/-- C8, amended: for a batch processed without cancellation (the collected
outcomes are a permutation of the scheduled ones), the members scheduled
for execution are exactly those passing validation and service resolution
(so a notification is executed exactly when it is valid); no notification
contributes an entry to the emitted array; the number of emitted entries
is the batch size minus the number of notifications; and the multiset of
emitted ids equals the multiset of non-null input ids, though in
completion order. -/
theorem c8_amended_batch_output (impl : JsonRpcImpl)
    (requests : List Request) (collected : List CallOutcome)
    (hperm : collected.Perm
      (batchOutcomes (batchValidate impl requests).2)) :
    ((batchValidate impl requests).2.map (fun b => b.req)
        = requests.filter (isSchedulable impl)) ∧
    (∀ resp ∈ writeBatchResponse
        (handleBatchRequest impl requests collected), resp.Id ≠ none) ∧
    (writeBatchResponse (handleBatchRequest impl requests collected)).length
        = requests.length
          - (requests.filter (fun r => r.Id = none)).length ∧
    ((writeBatchResponse
        (handleBatchRequest impl requests collected)).map Response.Id).Perm
      ((requests.filter (fun r => r.Id.isSome)).map Request.Id) := by
  have hidsAll :
      ((handleBatchRequest impl requests collected).map Response.Id).Perm
        (requests.map Request.Id) := by
    unfold handleBatchRequest
    rw [List.map_append]
    have h1 : (collected.map outcomeToResponse).map Response.Id
        = collected.map CallOutcome.reqId := by
      rw [List.map_map]
      exact congrFun (congrArg List.map (funext outcomeToResponse_Id))
        collected
    have h3 : (batchOutcomes (batchValidate impl requests).2).map
          CallOutcome.reqId
        = (batchValidate impl requests).2.map (fun b => b.req.Id) := by
      unfold batchOutcomes
      rw [List.map_map]
      congr 1
      funext b
      exact call_reqId b.service b.methodName b.req.Params b.req.Id
    have h2 : (collected.map CallOutcome.reqId).Perm
        ((batchValidate impl requests).2.map (fun b => b.req.Id)) := by
      rw [← h3]
      exact hperm.map CallOutcome.reqId
    rw [h1]
    exact (h2.append_left _).trans (batchValidate_ids impl requests)
  have hEmitIds :
      (writeBatchResponse
          (handleBatchRequest impl requests collected)).map Response.Id
        = ((handleBatchRequest impl requests collected).map
            Response.Id).filter (fun o => o.isSome) := by
    unfold writeBatchResponse
    exact filter_map_comm Response.Id (fun o => o.isSome) _
  have hFiltPerm := hidsAll.filter (fun o => o.isSome)
  have hReqSide :
      (requests.map Request.Id).filter (fun o => o.isSome)
        = (requests.filter (fun r => r.Id.isSome)).map Request.Id :=
    (filter_map_comm Request.Id (fun o => o.isSome) requests).symm
  have hPermIds :
      ((writeBatchResponse
          (handleBatchRequest impl requests collected)).map Response.Id).Perm
        ((requests.filter (fun r => r.Id.isSome)).map Request.Id) := by
    rw [hEmitIds, ← hReqSide]
    exact hFiltPerm
  refine ⟨batchValidate_sched impl requests, ?_, ?_, hPermIds⟩
  · intro resp hresp
    unfold writeBatchResponse at hresp
    rw [List.mem_filter] at hresp
    exact Option.isSome_iff_ne_none.mp hresp.2
  · have hlen1 :
        (writeBatchResponse
            (handleBatchRequest impl requests collected)).length
          = ((requests.filter (fun r => r.Id.isSome)).map
              Request.Id).length := by
      rw [← List.length_map _ Response.Id]
      exact hPermIds.length_eq
    have hsum := length_filter_sum (requests.map Request.Id)
    have hnone :
        ((requests.map Request.Id).filter (fun o => o = none)).length
          = (requests.filter (fun r => r.Id = none)).length := by
      rw [← filter_map_comm Request.Id (fun o => decide (o = none)) requests]
      rw [List.length_map]
    rw [hlen1, List.length_map]
    rw [List.length_map] at hsum
    have hx : (requests.filter (fun r => r.Id.isSome)).length
        = ((requests.map Request.Id).filter (fun o => o.isSome)).length := by
      rw [hReqSide, List.length_map]
    omega

/-- Witness for C8's amended theorem at a concrete batch holding a valid
request, a notification, and a request for an unregistered service,
collected in scheduling order. -/
theorem c8_amended_batch_output_witness :
    (batchOutcomes (batchValidate arithImpl batchReqs).2).Perm
      (batchOutcomes (batchValidate arithImpl batchReqs).2) ∧
    (((batchValidate arithImpl batchReqs).2.map (fun b => b.req)
        = batchReqs.filter (isSchedulable arithImpl)) ∧
      (∀ resp ∈ writeBatchResponse
          (handleBatchRequest arithImpl batchReqs
            (batchOutcomes (batchValidate arithImpl batchReqs).2)),
        resp.Id ≠ none) ∧
      (writeBatchResponse (handleBatchRequest arithImpl batchReqs
          (batchOutcomes (batchValidate arithImpl batchReqs).2))).length
          = batchReqs.length
            - (batchReqs.filter (fun r => r.Id = none)).length ∧
      ((writeBatchResponse (handleBatchRequest arithImpl batchReqs
          (batchOutcomes
            (batchValidate arithImpl batchReqs).2))).map Response.Id).Perm
        ((batchReqs.filter (fun r => r.Id.isSome)).map Request.Id)) :=
  ⟨List.Perm.refl _,
    c8_amended_batch_output arithImpl batchReqs
      (batchOutcomes (batchValidate arithImpl batchReqs).2)
      (List.Perm.refl _)⟩

end Jsonrpc2
